import Mathlib

/-!
Verification of the lesson-recommendation, progress-tracking and analytics
core of an AI-tutoring backend.

The Python source is shallowly embedded: Firestore documents become Lean
structures (a `.get(key, default)` on a dict becomes a field with that
default; a `.get(key)` becomes an `Option` field), catalog queries become
explicit lists passed in catalog order, timestamps become integers (whole
days or seconds) or rationals (days with a fractional part) as noted at
each definition, and Python floats become `ℚ`.  Fallible operations take
their collaborator results as `Except` arguments.
-/

namespace AiTutor

/-- A lesson document (collection `lessons`), in the shape produced by
`generate_lesson` / read back by the recommendation code.  `created_at` is
a day number; `relevance_score` / `recommendation_reason` model the keys
that `get_recommended_lessons` may add to the dict (absent = `none`). -/
structure Lesson where
  id : String
  subject : String
  difficulty : String
  title : String
  tags : List String
  created_at : Option Int
  relevance_score : Option ℚ := none
  recommendation_reason : Option String := none
  deriving DecidableEq, Repr

/-- An element of `learningProgress.completed_lessons` (or the
`current_lesson` snapshot).  Fields read with `.get(k, default)` in the
source carry that default; fields read with `.get(k)` are `Option`s.
Timestamps (`completion_date`, `last_accessed`) are in whole seconds. -/
structure CompletedLessonRecord where
  lesson_id : Option String
  title : Option String := none
  completed : Bool := false
  completion_date : Option Int := none
  score : Option ℚ := none
  time_spent : Int := 0
  progress : ℚ := 0
  last_position : Option String := none
  notes : Option String := none
  last_accessed : Option Int := none
  deriving DecidableEq, Repr

/-- The per-user `learningProgress` document.  The defaults are the
initial document `{"completed_lessons": [], "total_time_spent": 0}`
created by `update_lesson_progress`; `last_active` is written only by
`update_learning_progress`. -/
structure LearningProgress where
  completed_lessons : List CompletedLessonRecord := []
  current_lesson : Option CompletedLessonRecord := none
  total_time_spent : Int := 0
  last_active : Option ℚ := none
  deriving DecidableEq, Repr

/-! ## Recommendation engine: `models/lesson.py`, `get_recommended_lessons`

The function's live path (lines 24-63) queries the first `limit * 2`
catalog entries, filters out completed lesson ids, tags each survivor
with a fixed reason string, and stops once `limit` lessons are collected.
The scoring block at lines 104-158 sits after an unconditional `return`
and is unreachable; it is embedded separately as `score_lesson` below. -/

/-- `completed_lesson_ids = [lesson.get("lesson_id") for lesson in
learning_progress.get("completed_lessons", [])]` guarded by
`if learning_progress and "completed_lessons" in learning_progress`. -/
def completedLessonIds (learning_progress : Option LearningProgress) :
    List (Option String) :=
  match learning_progress with
  | some p => p.completed_lessons.map (·.lesson_id)
  | none => []

/-- The `for lesson in all_lessons` loop of the live path: skip lessons
whose id is among `completed_lesson_ids`, otherwise append the lesson
with `recommendation_reason` set, breaking as soon as the accumulator
reaches `limit` entries. -/
def recommendationLoop (completed_lesson_ids : List (Option String))
    (limit : Nat) : List Lesson → List Lesson → List Lesson
  | [], acc => acc
  | l :: ls, acc =>
    if some l.id ∈ completed_lesson_ids then
      recommendationLoop completed_lesson_ids limit ls acc
    else
      let acc2 := acc ++
        [{ l with recommendation_reason := some "Recommended based on your interests" }]
      if limit ≤ acc2.length then acc2
      else recommendationLoop completed_lesson_ids limit ls acc2

/-- The `try`-body of `get_recommended_lessons` (lines 29-63):
`all_lessons` is the catalog in fetch order, truncated by the Firestore
query `db.collection("lessons").limit(limit * 2)`. -/
def get_recommended_lessons_body (all_lessons : List Lesson)
    (learning_progress : Option LearningProgress) (limit : Nat) : List Lesson :=
  recommendationLoop (completedLessonIds learning_progress) limit
    (all_lessons.take (limit * 2)) []

/-- `get_recommended_lessons` with its `except` behaviour (lines 160-165):
the first `except Exception` clause logs and falls through without a
`return`, so any collaborator failure makes the Python function return
`None`; the duplicate second handler containing `return []` is dead. -/
def get_recommended_lessons (fetch_lessons : Except String (List Lesson))
    (fetch_progress : Except String (Option LearningProgress))
    (limit : Nat) : Option (List Lesson) :=
  match fetch_lessons, fetch_progress with
  | Except.ok all_lessons, Except.ok lp =>
      some (get_recommended_lessons_body all_lessons lp limit)
  | Except.error _, _ => none
  | _, Except.error _ => none

/-- The unreachable scoring block of `get_recommended_lessons`
(lines 104-158), per candidate lesson: +0.3 preferred subject, +0.2 exact
difficulty match (+0.1 one-step-up, −0.2 beginner→advanced), +0.1 if
created within 30 days of `now`, +0.1 × min(3, #common tags with the
user's completed lessons).  Tag sets become deduplicated lists. -/
def score_lesson (preferred_subjects : List String)
    (preferred_difficulty : String) (user_interested_tags : List String)
    (now : Int) (lesson : Lesson) : ℚ :=
  let s1 : ℚ :=
    if preferred_subjects ≠ [] ∧ lesson.subject ∈ preferred_subjects then 3/10 else 0
  let s2 : ℚ :=
    if lesson.difficulty = preferred_difficulty then 2/10
    else if preferred_difficulty = "beginner" ∧ lesson.difficulty = "intermediate" then 1/10
    else if preferred_difficulty = "intermediate" ∧ lesson.difficulty = "advanced" then 1/10
    else 0
  let s3 : ℚ :=
    if preferred_difficulty = "beginner" ∧ lesson.difficulty = "advanced" then -(2/10) else 0
  let s4 : ℚ :=
    match lesson.created_at with
    | some c => if now - c < 30 then 1/10 else 0
    | none => 0
  let common_tags := (lesson.tags.filter (· ∈ user_interested_tags)).dedup
  let s5 : ℚ :=
    if common_tags ≠ [] then (1/10) * (min common_tags.length 3 : ℕ) else 0
  s1 + s2 + s3 + s4 + s5

/-! Concrete scenario for the end-to-end recommendation claim: catalog
order is `[lessonB, lessonA]`, the user prefers Mathematics at beginner
level and has completed one lesson tagged `algebra`.  `now = 100`, so
`lessonA` (created at day 98) is 2 days old and `lessonB` (day 0) is 100
days old. -/

def lessonA : Lesson :=
  { id := "A", subject := "Mathematics", difficulty := "beginner",
    title := "Algebra Basics", tags := ["algebra", "equations"],
    created_at := some 98 }

def lessonB : Lesson :=
  { id := "B", subject := "Physics", difficulty := "advanced",
    title := "Advanced Quantum", tags := ["quantum"],
    created_at := some 0 }

def progressC1 : LearningProgress :=
  { completed_lessons := [{ lesson_id := some "C0", completed := true,
                            time_spent := 600 }] }

/-! ## Progress tracker: `models/user.py`, `update_lesson_progress`

`recordProgress` of the spec.  The update payload is a
`LessonProgressUpdate` (schemas/lesson.py); the function stamps it with
`last_accessed = now` and `lesson_id` before working on the per-user
`learningProgress` document. -/

/-- The request body `LessonProgressUpdate` of `schemas/lesson.py`. -/
structure LessonProgressUpdate where
  progress : ℚ
  time_spent : Int
  completed : Bool := false
  score : Option ℚ := none
  last_position : Option String := none
  notes : Option String := none
  deriving DecidableEq, Repr

instance : Inhabited CompletedLessonRecord :=
  ⟨{ lesson_id := none }⟩

/-- The dict `progress_data` after the function adds `last_accessed` and
`lesson_id` (lines 329-330), viewed as a completed-lesson record: this is
what `completed_lessons.append(progress_data)` appends and what
`current_data["current_lesson"] = progress_data` stores. -/
def progressDataRecord (lesson_id : String) (now : Int)
    (u : LessonProgressUpdate) : CompletedLessonRecord :=
  { lesson_id := some lesson_id, completed := u.completed, score := u.score,
    time_spent := u.time_spent, progress := u.progress,
    last_position := u.last_position, notes := u.notes,
    last_accessed := some now }

/-- `completed_lessons[existing_index].update(progress_data)`: overwrite
exactly the keys present in `progress_data`; `title` and
`completion_date` are not among them and survive. -/
def mergeRecord (r : CompletedLessonRecord) (lesson_id : String) (now : Int)
    (u : LessonProgressUpdate) : CompletedLessonRecord :=
  { r with
    lesson_id := some lesson_id,
    completed := u.completed,
    score := u.score,
    time_spent := u.time_spent,
    progress := u.progress,
    last_position := u.last_position,
    notes := u.notes,
    last_accessed := some now }

/-- `next((i for i, lesson in enumerate(completed_lessons) if
lesson.get("lesson_id") == lesson_id), None)`. -/
def findExistingIndex (lesson_id : String) :
    List CompletedLessonRecord → Option Nat
  | [] => none
  | r :: rs =>
    if r.lesson_id = some lesson_id then some 0
    else (findExistingIndex lesson_id rs).map (· + 1)

/-- `update_lesson_progress` of `models/user.py` (lines 315-384), acting
on the optional `learningProgress` document (`none` = `doc` absent).
Note the faithful aliasing: the `total_time_spent` adjustment reads
`completed_lessons[existing_index]` from the list as it stands after the
in-place `update`/`append`, because in Python the mutated list object is
the one indexed. -/
def update_lesson_progress (lesson_id : String) (now : Int)
    (u : LessonProgressUpdate) (doc : Option LearningProgress) :
    LearningProgress :=
  let current_data := doc.getD { completed_lessons := [], total_time_spent := 0 }
  let completed_lessons := current_data.completed_lessons
  let existing_index := findExistingIndex lesson_id completed_lessons
  let branched :=
    if u.completed then
      let completed2 :=
        match existing_index with
        | some i =>
          completed_lessons.set i
            (mergeRecord (completed_lessons.getD i default) lesson_id now u)
        | none => completed_lessons ++ [progressDataRecord lesson_id now u]
      let current2 : Option CompletedLessonRecord :=
        match current_data.current_lesson with
        | some c => if c.lesson_id = some lesson_id then none else some c
        | none => none
      (completed2, current2)
    else
      (completed_lessons, some (progressDataRecord lesson_id now u))
  let old_time : Int :=
    match existing_index with
    | some i => (branched.1.getD i default).time_spent
    | none => 0
  { completed_lessons := branched.1,
    current_lesson := branched.2,
    total_time_spent := current_data.total_time_spent + (u.time_spent - old_time),
    last_active := current_data.last_active }

/-- A sequence of progress calls against the same user's document,
starting from an absent document (created as
`{"completed_lessons": [], "total_time_spent": 0}` on first use). -/
def runProgressCalls (calls : List (String × Int × LessonProgressUpdate)) :
    LearningProgress :=
  calls.foldl (fun s c => update_lesson_progress c.1 c.2.1 c.2.2 (some s))
    { completed_lessons := [], total_time_spent := 0 }

/-! Concrete inputs for the total-time claim: complete lesson `L` with
100 seconds, then complete it again reporting 200 seconds. -/

def updFirst : LessonProgressUpdate :=
  { progress := 1, time_spent := 100, completed := true, score := some 80 }

def updSecond : LessonProgressUpdate :=
  { progress := 1, time_spent := 200, completed := true, score := some 90 }

/-- A concrete learning-progress document holding one completed record
for lesson `L` with a completion date already set. -/
def progressC5 : LearningProgress :=
  { completed_lessons := [{ lesson_id := some "L", completed := true,
                            completion_date := some 42, score := some 70,
                            time_spent := 100 }],
    total_time_spent := 100 }

/-! ## The progress route: `api/routes/lessons.py`, `track_progress`

The endpoint first calls `update_lesson_progress` imported from
`models/lesson.py` (which writes the per-user-per-lesson `lessonProgress`
document), then — only for `completed=true` and an existing lesson —
appends a completed record to `learningProgress` via
`update_learning_progress`.  `log_user_activity` (models/analytics.py) is
defined in the repository but is invoked nowhere. -/

/-- A `userActivity` document as `log_user_activity` would write it and
as the analytics reader consumes it: every key other than `user_id` may
be absent.  `timestamp` is in days with a fractional part, so Python's
`.date()` is the floor. -/
structure ActivityEvent where
  user_id : String
  type : Option String := none
  timestamp : Option ℚ := none
  lesson_id : Option String := none
  time_spent : Option Int := none
  score : Option ℚ := none
  deriving DecidableEq, Repr

/-- A `lessonProgress` document (`models/lesson.py`,
`update_lesson_progress`, lines 436-491). -/
structure LessonProgressDoc where
  user_id : String
  lesson_id : String
  progress : ℚ := 0
  started_at : Option Int := none
  last_accessed : Option Int := none
  completed : Bool := false
  time_spent : Int := 0
  score : Option ℚ := none
  last_position : Option String := none
  notes : Option String := none
  updated_at : Option Int := none
  deriving DecidableEq, Repr

/-- `models/lesson.py` `update_lesson_progress`: merge the update fields
(plus `updated_at`) into the `lessonProgress` document keyed
`f"{user_id}_{lesson_id}"`, creating it with the initial defaults when
absent.  The collection is an association list keyed by that pair. -/
def update_lesson_progress_doc (user_id lesson_id : String) (now : Int)
    (u : LessonProgressUpdate)
    (docs : List ((String × String) × LessonProgressDoc)) :
    List ((String × String) × LessonProgressDoc) :=
  let key := (user_id, lesson_id)
  match docs.find? (fun p => p.1 = key) with
  | some ⟨_, d⟩ =>
    docs.map (fun p => if p.1 = key then
      (p.1, { d with
              progress := u.progress,
              time_spent := u.time_spent,
              completed := u.completed,
              score := u.score,
              last_position := u.last_position,
              notes := u.notes,
              updated_at := some now })
      else p)
  | none =>
    docs ++ [(key, { user_id := user_id, lesson_id := lesson_id,
                     started_at := some now, last_accessed := some now,
                     progress := u.progress, completed := u.completed,
                     time_spent := u.time_spent, score := u.score,
                     last_position := u.last_position, notes := u.notes,
                     updated_at := some now })]

/-- The backing stores `track_progress` touches for one user: the lesson
catalog keyed by id, the user's `learningProgress` document, the
`lessonProgress` collection, and the `userActivity` collection. -/
structure World where
  lessons : List (String × Lesson)
  learning_progress : Option LearningProgress := none
  lesson_progress_docs : List ((String × String) × LessonProgressDoc) := []
  user_activity : List ActivityEvent := []
  deriving DecidableEq, Repr

/-- `get_lesson_by_id` against the catalog. -/
def get_lesson_by_id (w : World) (lesson_id : String) : Option Lesson :=
  (w.lessons.find? (fun p => p.1 = lesson_id)).map (·.2)

/-- The `track_progress` route handler (lines 236-302): write the
`lessonProgress` document, then, when the update is a completion of an
existing lesson, append a completed record to `learningProgress` and add
`progress.time_spent` to `total_time_spent` — but only when the lesson
is not already in `completed_lessons`; `update_learning_progress` stamps
`last_active`.  No step writes to `userActivity`. -/
def track_progress (w : World) (user_id lesson_id : String) (now : Int)
    (u : LessonProgressUpdate) : World :=
  let w1 := { w with lesson_progress_docs :=
    update_lesson_progress_doc user_id lesson_id now u w.lesson_progress_docs }
  if u.completed then
    match get_lesson_by_id w lesson_id with
    | some lesson =>
      let learning := w.learning_progress.getD {}
      let completed_lessons := learning.completed_lessons
      if completed_lessons.all (fun l => ¬ l.lesson_id = some lesson_id) then
        let completed2 := completed_lessons ++
          [{ lesson_id := some lesson_id, title := some lesson.title,
             completed := true, completion_date := some now,
             score := u.score, time_spent := u.time_spent }]
        let learning2 :=
          { learning with
            completed_lessons := completed2,
            total_time_spent := learning.total_time_spent + u.time_spent,
            last_active := some (now : ℚ) }
        { w1 with learning_progress := some learning2 }
      else w1
    | none => w1
  else w1

/-- A concrete world for the activity-event claim: lesson `L` exists,
the user has no progress yet and the activity log is empty. -/
def worldC3 : World :=
  { lessons := [("L", lessonA)] }

/-! ## Analytics aggregator: `models/analytics.py`, `get_dashboard_metrics`

The four dashboard metrics (lines 388-419) are computed over the
activity documents of the current and previous periods.  The percent
change and direction expressions are written out once here; the Python
repeats the identical expression for each metric. -/

/-- `sum(item.get("time_spent", 0) for item in activity if "time_spent"
in item)`. -/
def period_time_spent (activity : List ActivityEvent) : Int :=
  ((activity.filter (·.time_spent.isSome)).map (fun e => e.time_spent.getD 0)).sum

/-- `len([item for item in activity if item.get("type") ==
"lesson_completion"])`. -/
def period_lessons_completed (activity : List ActivityEvent) : Nat :=
  (activity.filter (fun e => e.type = some "lesson_completion")).length

/-- `[item.get("score", 0) for item in activity if "score" in item and
item.get("score") is not None]` — in the embedding a key that is present
with a non-`None` value is a `some`. -/
def period_scores (activity : List ActivityEvent) : List ℚ :=
  (activity.filter (·.score.isSome)).map (fun e => e.score.getD 0)

/-- `sum(scores) / len(scores) if scores else 0`. -/
def period_avg_score (activity : List ActivityEvent) : ℚ :=
  if period_scores activity ≠ [] then
    (period_scores activity).sum / (period_scores activity).length
  else 0

/-- `len(set(item.get("timestamp").date() for item in activity if
"timestamp" in item))`; `.date()` of a day-valued timestamp is its
floor. -/
def period_active_days (activity : List ActivityEvent) : Nat :=
  (((activity.filter (·.timestamp.isSome)).map
    (fun e => ⌊e.timestamp.getD 0⌋)).dedup).length

/-- `((current - prev) / prev * 100) if prev > 0 else 0`. -/
def percent_change (current previous : ℚ) : ℚ :=
  if previous > 0 then (current - previous) / previous * 100 else 0

/-- `"up" if change > 0 else "down" if change < 0 else "flat"`. -/
def change_direction (change : ℚ) : String :=
  if change > 0 then "up" else if change < 0 then "down" else "flat"

/-- The (current value, previous value) pair of each of the four
dashboard metrics, in the order they are built: time spent, lessons
completed, average score, active days. -/
def metric_values (cur prev : List ActivityEvent) : Fin 4 → ℚ × ℚ
  | 0 => ((period_time_spent cur : ℚ), (period_time_spent prev : ℚ))
  | 1 => ((period_lessons_completed cur : ℚ), (period_lessons_completed prev : ℚ))
  | 2 => (period_avg_score cur, period_avg_score prev)
  | 3 => ((period_active_days cur : ℚ), (period_active_days prev : ℚ))

/-- Each metric's reported `change`. -/
def metric_change (cur prev : List ActivityEvent) (i : Fin 4) : ℚ :=
  percent_change (metric_values cur prev i).1 (metric_values cur prev i).2

/-- Each metric's reported `change_direction`. -/
def metric_direction (cur prev : List ActivityEvent) (i : Fin 4) : String :=
  change_direction (metric_change cur prev i)

/-- A concrete activity document: a completed lesson with score and
time. -/
def eventC8 : ActivityEvent :=
  { user_id := "u1", type := some "lesson_completion", timestamp := some 10,
    time_spent := some 300, score := some 80 }

/-- A wall-clock value as Python's `datetime` constructor receives it. -/
structure PyDateTime where
  year : Int
  month : Int
  day : Int
  hour : Int := 0
  minute : Int := 0
  second : Int := 0
  deriving DecidableEq, Repr

/-- The `time_range == "month"` branch of `get_dashboard_metrics`
(lines 344-352): returns `(start_date, prev_start_date, prev_end_date)`;
the January case builds `datetime(now.year - 1, 12, 1)` and
`datetime(now.year, now.month, 1)`, every other month uses
`datetime(now.year, now.month - 1, 1)` and `start_date`. -/
def month_period (now : PyDateTime) : PyDateTime × PyDateTime × PyDateTime :=
  let start_date : PyDateTime := { year := now.year, month := now.month, day := 1 }
  if now.month = 1 then
    (start_date,
     { year := now.year - 1, month := 12, day := 1 },
     { year := now.year, month := now.month, day := 1 })
  else
    (start_date,
     { year := now.year, month := now.month - 1, day := 1 },
     start_date)

/-- Spec-side month arithmetic: the linear index of a calendar month, so
that consecutive months differ by exactly one across year boundaries. -/
def monthIndex (d : PyDateTime) : Int :=
  12 * d.year + (d.month - 1)

/-- Spec-side: midnight on the first of the month `now` lies in. -/
def firstOfMonth (now : PyDateTime) : PyDateTime :=
  { year := now.year, month := now.month, day := 1 }

/-! ## Streak days: `models/analytics.py`, `get_user_completion_stats`
(lines 210-239)

The streak block queries the user's activity with
`timestamp >= now - 30 days`, collects the distinct `.date()` values of
the returned documents (skipping documents without a timestamp), then
walks `today, today - 1, ...` while each date is in the set.  The walk
is embedded with explicit fuel `days.card`: each successful iteration
consumes a distinct member of the finite set, so `days.card` iterations
are enough to reproduce the Python `while` loop exactly (established by
the characterization theorem below). -/

/-- The set of activity dates within the last 30 days: timestamps are
day numbers with a fractional part, `.date()` is the floor. -/
def activity_days (events : List ActivityEvent) (now : ℚ) : Finset Int :=
  (((events.filterMap (·.timestamp)).filter
      (fun t => now - 30 ≤ t)).map (fun t => (⌊t⌋ : Int))).toFinset

/-- `while current_date in activity_days: streak_days += 1;
current_date -= 1 day`, with fuel. -/
def streak_loop (days : Finset Int) : Nat → Int → Nat
  | 0, _ => 0
  | fuel + 1, d =>
    if d ∈ days then streak_loop days fuel (d - 1) + 1 else 0

/-- `streak_days` as `get_user_completion_stats` computes it: 0 when the
document has no `last_active`, otherwise the walk from `today =
now.date()` down through the activity-day set. -/
def streak_days (last_active : Option ℚ) (events : List ActivityEvent)
    (now : ℚ) : Nat :=
  match last_active with
  | none => 0
  | some _ =>
    streak_loop (activity_days events now) (activity_days events now).card ⌊now⌋

/-- Auxiliary: the recommendation loop never grows the accumulator past
`limit` once the accumulator is below `limit`. -/
theorem recommendationLoop_length_le (ids : List (Option String)) (limit : Nat)
    (ls : List Lesson) :
    ∀ acc : List Lesson, acc.length < limit →
      (recommendationLoop ids limit ls acc).length ≤ limit := by
  induction ls with
  | nil =>
    intro acc h
    simpa [recommendationLoop] using Nat.le_of_lt h
  | cons l ls ih =>
    intro acc h
    simp only [recommendationLoop]
    split
    · exact ih acc h
    · split
      · next h2 =>
        simp only [List.length_append, List.length_cons, List.length_nil] at h2 ⊢
        omega
      · next h2 =>
        exact ih _ (by
          simp only [List.length_append, List.length_cons, List.length_nil] at h2 ⊢
          omega)

/-- Auxiliary: every lesson the recommendation loop returns either came
from the accumulator or passed the completed-id filter. -/
theorem recommendationLoop_not_completed (ids : List (Option String)) (limit : Nat)
    (ls : List Lesson) :
    ∀ acc : List Lesson, (∀ l ∈ acc, some l.id ∉ ids) →
      ∀ l ∈ recommendationLoop ids limit ls acc, some l.id ∉ ids := by
  induction ls with
  | nil =>
    intro acc hacc
    simpa [recommendationLoop] using hacc
  | cons l ls ih =>
    intro acc hacc
    simp only [recommendationLoop]
    split
    · exact ih acc hacc
    · next hnot =>
      have hacc2 : ∀ x ∈ acc ++
          [{ l with recommendation_reason := some "Recommended based on your interests" }],
          some x.id ∉ ids := by
        intro x hx
        rcases List.mem_append.1 hx with hmem | hmem
        · exact hacc x hmem
        · have hx2 : x = { l with
              recommendation_reason := some "Recommended based on your interests" } := by
            simpa using hmem
          rw [hx2]
          exact hnot
      split
      · exact hacc2
      · exact ih _ hacc2

/-- Claim C1: the spec says every recommendation request scores each
uncompleted candidate by the §4.2 rules and orders the result by score
descending, with the Mathematics/beginner lesson A scoring 0.7 and
ranking above the Physics/advanced lesson B.  The live code path does no
scoring: with catalog order `[B, A]` it returns B before A, no returned
lesson carries a `relevance_score`, while the unreachable scoring block
would indeed give A the claimed 0.7 and B −0.2. -/
theorem claim1_live_path_ignores_scoring :
    (get_recommended_lessons_body [lessonB, lessonA] (some progressC1) 2).map (·.id)
        = ["B", "A"]
    ∧ (∀ l ∈ get_recommended_lessons_body [lessonB, lessonA] (some progressC1) 2,
        l.relevance_score = none)
    ∧ score_lesson ["Mathematics"] "beginner" ["algebra"] 100 lessonA = 7/10
    ∧ score_lesson ["Mathematics"] "beginner" ["algebra"] 100 lessonB = -(2/10) := by
  refine ⟨by decide, by decide, ?_, ?_⟩
  · simp [score_lesson, lessonA]
    norm_num
  · simp [score_lesson, lessonB]

/-- Claim C4: the spec says any internal failure makes the engine return
an empty sequence.  In the code the first `except` clause logs without
returning, so a failed catalog fetch yields Python `None`, which is not
the empty list. -/
theorem claim4_failure_returns_none :
    get_recommended_lessons (Except.error "firestore unavailable")
        (Except.ok none) 3 = none
    ∧ (none : Option (List Lesson)) ≠ some [] :=
  ⟨rfl, by decide⟩

/-- Claim C6: for every recommendation request (the route enforces
`limit ≥ 1`), the returned sequence has length at most `limit` and never
contains a lesson whose id appears among the user's completed-lesson
records. -/
theorem claim6_limit_and_no_completed (all_lessons : List Lesson)
    (lp : Option LearningProgress) (limit : Nat) (h : 1 ≤ limit) :
    (get_recommended_lessons_body all_lessons lp limit).length ≤ limit
    ∧ ∀ l ∈ get_recommended_lessons_body all_lessons lp limit,
        some l.id ∉ completedLessonIds lp := by
  constructor
  · exact recommendationLoop_length_le _ _ _ [] (by simpa using h)
  · exact recommendationLoop_not_completed _ _ _ [] (by simp)

/-- Auxiliary: overwriting an index of a list with the value already
there (or any value, out of range) leaves the list unchanged. -/
theorem set_getD_self {α : Type} (l : List α) (i : Nat) (d : α) :
    l.set i (l.getD i d) = l := by
  induction l generalizing i with
  | nil => simp
  | cons a as ih =>
    cases i with
    | zero => simp [List.getD]
    | succ n =>
      have := ih n
      simp only [List.getD, List.get?_eq_getElem?] at this ⊢
      simp [this]

/-- Auxiliary: reading back the element just written with `set`. -/
theorem getD_set_self {α : Type} (l : List α) (i : Nat) (x d : α)
    (h : i < l.length) : (l.set i x).getD i d = x := by
  simp [List.getD, List.getElem?_set_self, h]

/-- Auxiliary: `getD` through a `map`, in range. -/
theorem getD_map {α β : Type} (f : α → β) (l : List α) (i : Nat) (d : α)
    (h : i < l.length) : (l.map f).getD i (f d) = f (l.getD i d) := by
  induction l generalizing i with
  | nil => simp at h
  | cons a as ih =>
    cases i with
    | zero => simp [List.getD]
    | succ n =>
      simp only [List.length_cons] at h
      have := ih n (by omega)
      simp only [List.getD] at this ⊢
      simp

/-- A found index is in range. -/
theorem findExistingIndex_lt_length (lesson_id : String)
    (l : List CompletedLessonRecord) (i : Nat)
    (h : findExistingIndex lesson_id l = some i) : i < l.length := by
  induction l generalizing i with
  | nil => simp [findExistingIndex] at h
  | cons r rs ih =>
    by_cases hr : r.lesson_id = some lesson_id
    · rw [findExistingIndex, if_pos hr] at h
      cases h
      simp
    · rw [findExistingIndex, if_neg hr, Option.map_eq_some'] at h
      obtain ⟨j, hj, rfl⟩ := h
      have := ih j hj
      simp only [List.length_cons]
      omega

/-- The record at a found index carries the searched `lesson_id`. -/
theorem findExistingIndex_matches (lesson_id : String)
    (l : List CompletedLessonRecord) (i : Nat)
    (h : findExistingIndex lesson_id l = some i) :
    (l.getD i default).lesson_id = some lesson_id := by
  induction l generalizing i with
  | nil => simp [findExistingIndex] at h
  | cons r rs ih =>
    by_cases hr : r.lesson_id = some lesson_id
    · rw [findExistingIndex, if_pos hr] at h
      cases h
      simpa [List.getD] using hr
    · rw [findExistingIndex, if_neg hr, Option.map_eq_some'] at h
      obtain ⟨j, hj, rfl⟩ := h
      have := ih j hj
      simp only [List.getD] at this ⊢
      simpa using this

/-- A search that fails means no record carries the id. -/
theorem findExistingIndex_eq_none (lesson_id : String)
    (l : List CompletedLessonRecord)
    (h : findExistingIndex lesson_id l = none) :
    ∀ r ∈ l, r.lesson_id ≠ some lesson_id := by
  induction l with
  | nil => simp
  | cons r rs ih =>
    by_cases hr : r.lesson_id = some lesson_id
    · rw [findExistingIndex, if_pos hr] at h
      cases h
    · rw [findExistingIndex, if_neg hr, Option.map_eq_none'] at h
      intro x hx
      rcases List.mem_cons.1 hx with hx2 | hx2
      · exact hx2 ▸ hr
      · exact ih h x hx2

/-- A record carrying the id makes the search succeed. -/
theorem findExistingIndex_isSome_of_mem (lesson_id : String)
    (l : List CompletedLessonRecord) (r : CompletedLessonRecord)
    (hmem : r ∈ l) (hid : r.lesson_id = some lesson_id) :
    (findExistingIndex lesson_id l).isSome := by
  cases hfind : findExistingIndex lesson_id l with
  | some i => rfl
  | none => exact absurd hid (findExistingIndex_eq_none lesson_id l hfind r hmem)

/-- Witness for claim C6 at a concrete request. -/
theorem claim6_witness :
    1 ≤ 2
    ∧ ((get_recommended_lessons_body [lessonB, lessonA] (some progressC1) 2).length ≤ 2
      ∧ ∀ l ∈ get_recommended_lessons_body [lessonB, lessonA] (some progressC1) 2,
          some l.id ∉ completedLessonIds (some progressC1)) :=
  ⟨by decide, claim6_limit_and_no_completed [lessonB, lessonA] (some progressC1) 2 (by decide)⟩

/-- Auxiliary: a written element is a member of the written list. -/
theorem mem_set_self {α : Type} (l : List α) (i : Nat) (x : α)
    (h : i < l.length) : x ∈ l.set i x := by
  induction l generalizing i with
  | nil => simp at h
  | cons a as ih =>
    cases i with
    | zero => simp
    | succ n =>
      simp only [List.length_cons] at h
      simp [ih n (by omega)]

/-- Auxiliary: overwriting an element with one that maps to the same
image leaves the mapped list unchanged. -/
theorem map_set_self_of_eq {α β : Type} (f : α → β) (l : List α) (i : Nat)
    (x d : α) (h : i < l.length) (heq : f x = f (l.getD i d)) :
    (l.set i x).map f = l.map f := by
  induction l generalizing i with
  | nil => simp at h
  | cons a as ih =>
    cases i with
    | zero =>
      simp only [List.getD] at heq
      simp only [List.set, List.map]
      simpa using heq
    | succ n =>
      simp only [List.length_cons] at h
      simp only [List.getD, List.getElem?_cons_succ] at heq
      simp only [List.set, List.map]
      have := ih n (by omega) (by simpa [List.getD] using heq)
      simpa using this

/-- Auxiliary: one `update_lesson_progress` call keeps the
completed-lesson ids pairwise distinct. -/
theorem update_preserves_nodup (lesson_id : String) (now : Int)
    (u : LessonProgressUpdate) (s : LearningProgress)
    (h : (s.completed_lessons.map (·.lesson_id)).Nodup) :
    (((update_lesson_progress lesson_id now u (some s)).completed_lessons).map
      (·.lesson_id)).Nodup := by
  by_cases hc : u.completed = true
  · cases hfi : findExistingIndex lesson_id s.completed_lessons with
    | none =>
      have hnot : some lesson_id ∉ s.completed_lessons.map (·.lesson_id) := by
        intro hmem
        obtain ⟨r, hr, hrid⟩ := List.mem_map.1 hmem
        exact findExistingIndex_eq_none lesson_id _ hfi r hr hrid
      simp [update_lesson_progress, hc, hfi, List.nodup_append, h, hnot,
        progressDataRecord]
    | some i =>
      have hlt := findExistingIndex_lt_length lesson_id _ i hfi
      have hmatch := findExistingIndex_matches lesson_id _ i hfi
      have hmap := map_set_self_of_eq (·.lesson_id) s.completed_lessons i
        (mergeRecord (s.completed_lessons.getD i default) lesson_id now u)
        default hlt (by simp only [mergeRecord]; exact hmatch.symm)
      have hcl : (update_lesson_progress lesson_id now u (some s)).completed_lessons
          = s.completed_lessons.set i
              (mergeRecord (s.completed_lessons.getD i default) lesson_id now u) := by
        simp [update_lesson_progress, hc, hfi]
      rw [hcl, hmap]
      exact h
  · simpa [update_lesson_progress, hc] using h

/-- Claim C5: after any sequence of progress calls the per-user document
holds at most one completed record per lesson id, and a repeat
`completed=true` update merges in place — the list does not grow, the
record stays completed with score and time overwritten, and a
previously-set completion date is untouched. -/
theorem claim5_at_most_one_record :
    (∀ calls : List (String × Int × LessonProgressUpdate),
      ((runProgressCalls calls).completed_lessons.map (·.lesson_id)).Nodup)
    ∧ (∀ (s : LearningProgress) (lesson_id : String) (now : Int)
        (u : LessonProgressUpdate) (i : Nat),
        u.completed = true →
        findExistingIndex lesson_id s.completed_lessons = some i →
        (update_lesson_progress lesson_id now u (some s)).completed_lessons.length
            = s.completed_lessons.length
        ∧ (((update_lesson_progress lesson_id now u
              (some s)).completed_lessons.getD i default).completed = true
          ∧ ((update_lesson_progress lesson_id now u
              (some s)).completed_lessons.getD i default).score = u.score
          ∧ ((update_lesson_progress lesson_id now u
              (some s)).completed_lessons.getD i default).time_spent = u.time_spent
          ∧ ((s.completed_lessons.getD i default).completion_date ≠ none →
              ((update_lesson_progress lesson_id now u
                (some s)).completed_lessons.getD i default).completion_date
                = (s.completed_lessons.getD i default).completion_date))) := by
  constructor
  · intro calls
    suffices hgen : ∀ (cs : List (String × Int × LessonProgressUpdate))
        (s : LearningProgress), (s.completed_lessons.map (·.lesson_id)).Nodup →
        (((cs.foldl (fun t c => update_lesson_progress c.1 c.2.1 c.2.2 (some t)) s)
          ).completed_lessons.map (·.lesson_id)).Nodup by
      exact hgen calls _ (by simp)
    intro cs
    induction cs with
    | nil => intro s hs; simpa using hs
    | cons c cs ih =>
      intro s hs
      exact ih _ (update_preserves_nodup c.1 c.2.1 c.2.2 s hs)
  · intro s lesson_id now u i hc hfi
    have hlt := findExistingIndex_lt_length lesson_id _ i hfi
    refine ⟨by simp [update_lesson_progress, hc, hfi], ?_, ?_, ?_, ?_⟩
    all_goals
      simp [update_lesson_progress, hc, hfi, mergeRecord, List.getD,
        List.getElem?_set_self, hlt]

/-- Witness for claim C5: completing lesson `L` twice leaves a single
record, and a repeat completion of the concrete document `progressC5`
keeps it completed, overwrites score 70 with 90 and time 100 with 200,
and keeps completion date 42. -/
theorem claim5_witness :
    ((runProgressCalls
        [("L", 1, updFirst), ("L", 2, updSecond)]).completed_lessons.map
        (·.lesson_id)).Nodup
    ∧ (updSecond.completed = true
      ∧ findExistingIndex "L" progressC5.completed_lessons = some 0)
    ∧ (update_lesson_progress "L" 7 updSecond
          (some progressC5)).completed_lessons.length
        = progressC5.completed_lessons.length
    ∧ ((update_lesson_progress "L" 7 updSecond
          (some progressC5)).completed_lessons.getD 0 default).completion_date
        = (progressC5.completed_lessons.getD 0 default).completion_date :=
  ⟨claim5_at_most_one_record.1 [("L", 1, updFirst), ("L", 2, updSecond)],
   ⟨rfl, by decide⟩,
   (claim5_at_most_one_record.2 progressC5 "L" 7 updSecond 0 rfl (by decide)).1,
   (claim5_at_most_one_record.2 progressC5 "L" 7 updSecond 0 rfl
      (by decide)).2.2.2.2 (by decide)⟩

/-- Claim C2: the spec says a repeat update replaces the lesson's
previous time contribution, so completing lesson `L` with 100 seconds
and then re-completing it with 200 seconds should leave the total at
200.  The code merges the record in place before reading the "previous"
time from the very same mutated record, so the adjustment is always 0
and the total stays at 100. -/
theorem claim2_total_not_delta_adjusted :
    (update_lesson_progress "L" 1 updFirst none).total_time_spent = 100
    ∧ (update_lesson_progress "L" 2 updSecond
        (some (update_lesson_progress "L" 1 updFirst none))).total_time_spent = 100
    ∧ ¬ (update_lesson_progress "L" 2 updSecond
        (some (update_lesson_progress "L" 1 updFirst none))).total_time_spent
          = 100 + (200 - 100) := by
  refine ⟨by decide, by decide, by decide⟩

/-- Claim C7: submitting the identical `completed=true` update twice
yields the same `total_time_spent` as submitting it once. -/
theorem claim7_idempotent (s : LearningProgress) (lesson_id : String)
    (now1 now2 : Int) (u : LessonProgressUpdate) (h : u.completed = true) :
    (update_lesson_progress lesson_id now2 u
        (some (update_lesson_progress lesson_id now1 u (some s)))).total_time_spent
      = (update_lesson_progress lesson_id now1 u (some s)).total_time_spent := by
  set s1 := update_lesson_progress lesson_id now1 u (some s) with hs1
  have hex : ∃ r ∈ s1.completed_lessons, r.lesson_id = some lesson_id := by
    rw [hs1]
    cases hfi : findExistingIndex lesson_id s.completed_lessons with
    | none =>
      refine ⟨progressDataRecord lesson_id now1 u, ?_, rfl⟩
      simp [update_lesson_progress, h, hfi]
    | some i =>
      have hlt := findExistingIndex_lt_length lesson_id _ i hfi
      have hcl : (update_lesson_progress lesson_id now1 u (some s)).completed_lessons
          = s.completed_lessons.set i
              (mergeRecord (s.completed_lessons.getD i default) lesson_id now1 u) := by
        simp [update_lesson_progress, h, hfi]
      refine ⟨mergeRecord (s.completed_lessons.getD i default) lesson_id now1 u,
        ?_, rfl⟩
      rw [hcl]
      exact mem_set_self _ i _ hlt
  obtain ⟨r, hrmem, hrid⟩ := hex
  have hsome := findExistingIndex_isSome_of_mem lesson_id _ r hrmem hrid
  obtain ⟨i2, hfi2⟩ := Option.isSome_iff_exists.1 hsome
  have hlt2 := findExistingIndex_lt_length lesson_id _ i2 hfi2
  simp [update_lesson_progress, h, hfi2, mergeRecord, List.getD,
    List.getElem?_set_self, hlt2]

/-- Claim C3 (amended): a recordProgress call appends no ActivityEvent
at all — the route never invokes `log_user_activity`, so the
`userActivity` collection is unchanged by every call. -/
theorem claim3_no_activity_event (w : World) (user_id lesson_id : String)
    (now : Int) (u : LessonProgressUpdate) :
    (track_progress w user_id lesson_id now u).user_activity
      = w.user_activity := by
  simp only [track_progress]
  split
  · split
    · split <;> rfl
    · rfl
  · rfl

/-- Counterexample to claim C3 as stated: a successful `completed=true`
call that does record the completion appends zero activity events, not
exactly one. -/
theorem claim3_counterexample :
    ((track_progress worldC3 "u1" "L" 5 updFirst).learning_progress.getD
        {}).completed_lessons.length = 1
    ∧ (track_progress worldC3 "u1" "L" 5 updFirst).user_activity.length = 0
    ∧ ¬ ((track_progress worldC3 "u1" "L" 5 updFirst).user_activity.length
          = worldC3.user_activity.length + 1) := by
  refine ⟨by decide, by decide, by decide⟩

/-- Claim C8: for every dashboard metric, a zero previous-period value
reports change 0 and direction "flat" even when the current value is
positive; a positive previous value reports the relative change in
percent, with the direction following its sign. -/
theorem claim8_percent_change_boundary (cur prev : List ActivityEvent)
    (i : Fin 4) :
    ((metric_values cur prev i).2 = 0 →
      metric_change cur prev i = 0 ∧ metric_direction cur prev i = "flat")
    ∧ (0 < (metric_values cur prev i).2 →
      metric_change cur prev i
        = ((metric_values cur prev i).1 - (metric_values cur prev i).2)
            / (metric_values cur prev i).2 * 100)
    ∧ metric_direction cur prev i
        = (if 0 < metric_change cur prev i then "up"
           else if metric_change cur prev i < 0 then "down" else "flat") := by
  refine ⟨?_, ?_, ?_⟩
  · intro hp
    have hch : metric_change cur prev i = 0 := by
      simp [metric_change, percent_change, hp]
    refine ⟨hch, ?_⟩
    simp [metric_direction, change_direction, hch]
  · intro hp
    simp [metric_change, percent_change, hp]
  · simp [metric_direction, change_direction]

/-- Witness for claim C8: previous period empty (previous lessons
completed = 0, current = 1) reports change 0 and "flat"; with previous
count 1 and current count 2 the reported change is 100%. -/
theorem claim8_witness :
    ((metric_values [eventC8] [] 1).2 = 0
      ∧ metric_change [eventC8] [] 1 = 0
      ∧ metric_direction [eventC8] [] 1 = "flat")
    ∧ (0 < (metric_values [eventC8, eventC8] [eventC8] 1).2
      ∧ metric_change [eventC8, eventC8] [eventC8] 1
          = ((metric_values [eventC8, eventC8] [eventC8] 1).1
              - (metric_values [eventC8, eventC8] [eventC8] 1).2)
            / (metric_values [eventC8, eventC8] [eventC8] 1).2 * 100) := by
  have h0 : (metric_values [eventC8] [] 1).2 = 0 := by
    simp [metric_values, period_lessons_completed]
  have h1 : (0:ℚ) < (metric_values [eventC8, eventC8] [eventC8] 1).2 := by
    simp [metric_values, period_lessons_completed, eventC8]
  exact ⟨⟨h0, (claim8_percent_change_boundary [eventC8] [] 1).1 h0⟩,
    ⟨h1, (claim8_percent_change_boundary [eventC8, eventC8] [eventC8] 1).2.1 h1⟩⟩

/-- Claim C9: for `time_range="month"` the current period starts at
midnight on the 1st of the current month; the previous period is the
entire prior calendar month — its start is midnight on the 1st of the
month whose index is one less and its end is the current period's start
— and in January the window is the full preceding December of the
previous year. -/
theorem claim9_month_boundaries (now : PyDateTime) :
    (month_period now).1 = firstOfMonth now
    ∧ (month_period now).2.2 = firstOfMonth now
    ∧ ((month_period now).2.1.day = 1
      ∧ (month_period now).2.1.hour = 0
      ∧ (month_period now).2.1.minute = 0
      ∧ (month_period now).2.1.second = 0
      ∧ monthIndex (month_period now).2.1 = monthIndex (firstOfMonth now) - 1)
    ∧ (now.month = 1 →
        (month_period now).2.1 = { year := now.year - 1, month := 12, day := 1 }
        ∧ (month_period now).2.2 = { year := now.year, month := 1, day := 1 }) := by
  by_cases hm : now.month = 1 <;>
    refine ⟨?_, ?_, ⟨?_, ?_, ?_, ?_, ?_⟩, ?_⟩ <;>
    simp [month_period, monthIndex, firstOfMonth, hm] <;>
    omega

/-- Witness for claim C9 at the fixed clock 2024-01-15: the previous
window is the full December 2023. -/
theorem claim9_witness :
    (month_period { year := 2024, month := 1, day := 15, hour := 10 }).2.1
        = { year := 2023, month := 12, day := 1 }
    ∧ (month_period { year := 2024, month := 1, day := 15, hour := 10 }).2.2
        = { year := 2024, month := 1, day := 1 } := by
  have h := (claim9_month_boundaries
    { year := 2024, month := 1, day := 15, hour := 10 }).2.2.2 (by decide)
  simpa using h

/-- Auxiliary: the streak walk cannot exceed its fuel. -/
theorem streak_loop_le (days : Finset Int) (fuel : Nat) :
    ∀ d : Int, streak_loop days fuel d ≤ fuel := by
  induction fuel with
  | zero => intro d; simp [streak_loop]
  | succ n ih =>
    intro d
    simp only [streak_loop]
    split
    · exact Nat.succ_le_succ (ih (d - 1))
    · exact Nat.zero_le _

/-- Auxiliary: every day the streak walk counts is an activity day. -/
theorem streak_loop_mem (days : Finset Int) (fuel : Nat) :
    ∀ (d : Int) (j : Nat), j < streak_loop days fuel d → (d - j) ∈ days := by
  induction fuel with
  | zero => intro d j h; simp [streak_loop] at h
  | succ n ih =>
    intro d j h
    simp only [streak_loop] at h
    split at h
    · next hd =>
      cases j with
      | zero => simpa using hd
      | succ k =>
        have hk : k < streak_loop days n (d - 1) := by omega
        have h2 := ih (d - 1) k hk
        push_cast
        have h3 : d - ((k : Int) + 1) = d - 1 - k := by ring
        rw [h3]
        exact h2
    · omega

/-- Auxiliary: when the walk stops before exhausting its fuel, the next
day below the counted run is not an activity day. -/
theorem streak_loop_gap (days : Finset Int) (fuel : Nat) :
    ∀ d : Int, streak_loop days fuel d < fuel →
      (d - (streak_loop days fuel d : Int)) ∉ days := by
  induction fuel with
  | zero => intro d h; simp at h
  | succ n ih =>
    intro d h
    by_cases hd : d ∈ days
    · simp only [streak_loop, if_pos hd] at h ⊢
      have h' : streak_loop days n (d - 1) < n := by omega
      have h2 := ih (d - 1) h'
      push_cast
      have h3 : d - ((streak_loop days n (d - 1) : Int) + 1)
          = d - 1 - (streak_loop days n (d - 1) : Int) := by ring
      rw [h3]
      exact h2
    · simp only [streak_loop, if_neg hd] at h ⊢
      simpa using hd

/-- Auxiliary: when the walk exhausts fuel equal to the set's size it
has consumed every activity day, so the next day is not one. -/
theorem streak_loop_full (days : Finset Int) (d : Int)
    (h : streak_loop days days.card d = days.card) :
    (d - (days.card : Int)) ∉ days := by
  intro hmem
  have hinj : Function.Injective (fun j : Nat => d - (j : Int)) := by
    intro a b hab
    simp only [sub_right_inj, Nat.cast_inj] at hab
    exact hab
  have hsub : (Finset.range days.card).image (fun j : Nat => d - (j : Int))
      ⊆ days := by
    intro x hx
    simp only [Finset.mem_image, Finset.mem_range] at hx
    obtain ⟨j, hj, rfl⟩ := hx
    exact streak_loop_mem days days.card d j (by omega)
  have hcard : ((Finset.range days.card).image
      (fun j : Nat => d - (j : Int))).card = days.card := by
    rw [Finset.card_image_of_injective _ hinj, Finset.card_range]
  have heq : (Finset.range days.card).image (fun j : Nat => d - (j : Int))
      = days :=
    Finset.eq_of_subset_of_card_le hsub (by rw [hcard])
  rw [← heq] at hmem
  simp only [Finset.mem_image, Finset.mem_range] at hmem
  obtain ⟨j, hj, hjeq⟩ := hmem
  have : (days.card : Int) = (j : Int) := by omega
  omega

/-- Claim C10: `streak_days` is exactly the count of consecutive
calendar days ending at today each carrying an activity event from the
last 30 days: every counted offset is an activity day and the day right
below the run is not; in particular it is 0 when there is no
`last_active` or no activity dated today. -/
theorem claim10_streak_characterization (la : Option ℚ)
    (events : List ActivityEvent) (now : ℚ) :
    (la = none → streak_days la events now = 0)
    ∧ (⌊now⌋ ∉ activity_days events now → streak_days la events now = 0)
    ∧ (∀ j : Nat, j < streak_days la events now →
        (⌊now⌋ - (j : Int)) ∈ activity_days events now)
    ∧ (la.isSome →
        (⌊now⌋ - (streak_days la events now : Int)) ∉ activity_days events now) := by
  refine ⟨?_, ?_, ?_, ?_⟩
  · intro h
    simp [streak_days, h]
  · intro h
    cases la with
    | none => simp [streak_days]
    | some t =>
      simp only [streak_days]
      cases hc : (activity_days events now).card with
      | zero => simp [streak_loop]
      | succ n => simp [streak_loop, h]
  · intro j hj
    cases la with
    | none => simp [streak_days] at hj
    | some t =>
      simp only [streak_days] at hj
      exact streak_loop_mem _ _ _ j hj
  · intro hs
    cases la with
    | none => simp at hs
    | some t =>
      simp only [streak_days]
      have hle := streak_loop_le (activity_days events now)
        (activity_days events now).card ⌊now⌋
      rcases lt_or_eq_of_le hle with hlt | heq
      · exact streak_loop_gap _ _ _ hlt
      · rw [heq]
        exact streak_loop_full _ _ heq

/-- Witness for claim C10: an absent `last_active` gives streak 0, and
for a user active today the day below the one-day run has no
activity. -/
theorem claim10_witness :
    streak_days none [] 0 = 0
    ∧ (some (1:ℚ)).isSome = true
    ∧ (⌊(10:ℚ)⌋ - (streak_days (some 1) [eventC8] 10 : Int))
        ∉ activity_days [eventC8] 10 :=
  ⟨(claim10_streak_characterization none [] 0).1 rfl, rfl,
   (claim10_streak_characterization (some 1) [eventC8] 10).2.2.2 rfl⟩

/-- Witness for claim C7 at a concrete state and update. -/
theorem claim7_witness :
    updFirst.completed = true
    ∧ (update_lesson_progress "L" 2 updFirst
        (some (update_lesson_progress "L" 1 updFirst
          (some { completed_lessons := [], total_time_spent := 0 })))).total_time_spent
      = (update_lesson_progress "L" 1 updFirst
          (some { completed_lessons := [], total_time_spent := 0 })).total_time_spent :=
  ⟨rfl, claim7_idempotent { completed_lessons := [], total_time_spent := 0 }
    "L" 1 2 updFirst rfl⟩

end AiTutor
